import Mathlib

/-!
The dial plugin ABI and its C example plugin.

Shallow embedding of `include/dial-plugin.h` and `example/c-example-plugin.c`.

* A `char` is a natural number (`Byte`), `0` being the string terminator.
* A pointer is the base address of a block (`Ptr`), `0` being `NULL`.
* An output parameter (`*handle`, `*schema_len`, `*result`, ...) is an `Option`:
  `none` when the function did not write it, `some v` when it wrote `v`.
* The C library is an input of each call (`Sys`): the value `time(NULL)` returns,
  the buffer `ctime` returns and the answer `malloc` gives.
* The heap is a list of live blocks.  A store that does not land inside the
  block it is addressed to, and a `free` of a pointer that is not a live block,
  are not performed; they are written to a log of the heap instead.
-/

namespace Dial

/-! ## `dial-plugin.h` -/

/-- The enumeration `DialPluginResult` of `dial-plugin.h`. -/
inductive DialPluginResult where
  | DIAL_PLUGIN_SUCCESS
  | DIAL_PLUGIN_ERROR_UNKNOWN
  | DIAL_PLUGIN_ERROR_OUT_OF_MEMORY
  | DIAL_PLUGIN_ERROR_INIT
  | DIAL_PLUGIN_ERROR_SCHEMA
  | DIAL_PLUGIN_ERROR_INVOKE
  deriving DecidableEq, Repr, Fintype

/-- The integer value of each enumerator, as written in the header. -/
def DialPluginResult.toInt : DialPluginResult → Int
  | .DIAL_PLUGIN_SUCCESS => 0
  | .DIAL_PLUGIN_ERROR_UNKNOWN => -1
  | .DIAL_PLUGIN_ERROR_OUT_OF_MEMORY => -2
  | .DIAL_PLUGIN_ERROR_INIT => -3
  | .DIAL_PLUGIN_ERROR_SCHEMA => -4
  | .DIAL_PLUGIN_ERROR_INVOKE => -5

/-- The failure statuses: the enumerators named `DIAL_PLUGIN_ERROR_...`. -/
def DialPluginResult.isFailure : DialPluginResult → Bool
  | .DIAL_PLUGIN_SUCCESS => false
  | .DIAL_PLUGIN_ERROR_UNKNOWN => true
  | .DIAL_PLUGIN_ERROR_OUT_OF_MEMORY => true
  | .DIAL_PLUGIN_ERROR_INIT => true
  | .DIAL_PLUGIN_ERROR_SCHEMA => true
  | .DIAL_PLUGIN_ERROR_INVOKE => true

def DIAL_PLUGIN_SUCCESS : Int := DialPluginResult.DIAL_PLUGIN_SUCCESS.toInt
def DIAL_PLUGIN_ERROR_UNKNOWN : Int := DialPluginResult.DIAL_PLUGIN_ERROR_UNKNOWN.toInt
def DIAL_PLUGIN_ERROR_OUT_OF_MEMORY : Int := DialPluginResult.DIAL_PLUGIN_ERROR_OUT_OF_MEMORY.toInt
def DIAL_PLUGIN_ERROR_INIT : Int := DialPluginResult.DIAL_PLUGIN_ERROR_INIT.toInt
def DIAL_PLUGIN_ERROR_SCHEMA : Int := DialPluginResult.DIAL_PLUGIN_ERROR_SCHEMA.toInt
def DIAL_PLUGIN_ERROR_INVOKE : Int := DialPluginResult.DIAL_PLUGIN_ERROR_INVOKE.toInt

/-! ## C strings and the heap -/

/-- A `char`. -/
abbrev Byte := Nat

/-- A pointer: the base address of a block. -/
abbrev Ptr := Nat

/-- The null pointer. -/
def NULL : Ptr := 0

/-- The bytes of a C string literal (all its characters are ASCII). -/
def cbytes (s : String) : List Byte :=
  s.toList.map Char.toNat

/-- The text of the C string held in a buffer: the bytes before the first
terminator (the end of the list stands for a terminator too). -/
def cstr (buf : List Byte) : List Byte :=
  buf.takeWhile (fun b => b != 0)

/-- C `strlen`: the number of bytes before the terminator. -/
def strlen (buf : List Byte) : Nat :=
  (cstr buf).length

/-- A live block: its base address and its bytes; `none` is a byte that was
never written. -/
abbrev Block := Ptr × List (Option Byte)

/-- The heap. -/
structure Heap where
  /-- blocks handed out by `malloc` and not yet freed, newest first -/
  blocks : List Block
  /-- stores outside the addressed block: base, offset, byte -/
  stray : List (Ptr × Nat × Byte)
  /-- pointers given to `free` that were not a live block -/
  bad_free : List Ptr
  deriving DecidableEq, Repr

/-- The heap of a freshly loaded process. -/
def Heap.empty : Heap :=
  { blocks := [], stray := [], bad_free := [] }

/-- C `malloc(size)`, given the allocator's answer: `NULL` leaves the heap as it
is, any other answer is the base of a new block of `size` unwritten bytes. -/
def Heap.malloc (h : Heap) (size : Nat) (answer : Ptr) : Heap × Ptr :=
  if answer = NULL then (h, NULL)
  else ({ h with blocks := (answer, List.replicate size none) :: h.blocks }, answer)

/-- The bytes of the newest live block based at `p`. -/
def Heap.block (h : Heap) (p : Ptr) : Option (List (Option Byte)) :=
  (h.blocks.find? (fun blk => blk.1 == p)).map Prod.snd

/-- Store of one byte at offset `off` of the block based at `p`, in a list of
blocks; `none` when no block is based at `p` or `off` is outside it. -/
def storeBlocks : List Block → Ptr → Nat → Byte → Option (List Block)
  | [], _, _, _ => none
  | (q, d) :: rest, p, off, b =>
    if q = p then
      if off < d.length then some ((q, d.set off (some b)) :: rest) else none
    else
      (storeBlocks rest p off b).map (fun bs => (q, d) :: bs)

/-- Store of one byte through `p + off`: performed when it lands in the block
based at `p`, logged in `stray` otherwise. -/
def Heap.store (h : Heap) (p : Ptr) (off : Nat) (b : Byte) : Heap :=
  match storeBlocks h.blocks p off b with
  | some bs => { h with blocks := bs }
  | none => { h with stray := h.stray ++ [(p, off, b)] }

/-- Successive stores of `bs` from offset `off` of the block based at `p`. -/
def Heap.storeBytes (h : Heap) (p : Ptr) : Nat → List Byte → Heap
  | _, [] => h
  | off, b :: bs => (h.store p off b).storeBytes p (off + 1) bs

/-- C `strcpy(dest, src)`: copies the text of `src` and then the terminator. -/
def Heap.strcpy (h : Heap) (dest : Ptr) (src : List Byte) : Heap :=
  h.storeBytes dest 0 (cstr src ++ [0])

/-- Removal of the newest block based at `p`; `none` when there is none. -/
def freeBlocks : List Block → Ptr → Option (List Block)
  | [], _ => none
  | (q, d) :: rest, p =>
    if q = p then some rest else (freeBlocks rest p).map (fun bs => (q, d) :: bs)

/-- C `free(p)`: nothing for `NULL`, releases the block based at `p`, and is
logged in `bad_free` when `p` is not a live block. -/
def Heap.free (h : Heap) (p : Ptr) : Heap :=
  if p = NULL then h
  else
    match freeBlocks h.blocks p with
    | some bs => { h with blocks := bs }
    | none => { h with bad_free := h.bad_free ++ [p] }

/-- The first `n` bytes of the block based at `p`, as the host reads them;
`none` when there is no such block or it is shorter than `n`. -/
def Heap.read (h : Heap) (p : Ptr) (n : Nat) : Option (List (Option Byte)) :=
  match h.block p with
  | some d => if n ≤ d.length then some (d.take n) else none
  | none => none

/-- What the C library answers during one call of the plugin. -/
structure Sys where
  /-- the value `time(NULL)` returns -/
  time : Int
  /-- the buffer `ctime` returns for a time -/
  ctime : Int → List Byte
  /-- the answer of `malloc` to a request of the given size, `NULL` on failure -/
  malloc : Nat → Ptr

/-! ## `c-example-plugin.c` -/

/-- The string literal the global `schema` points to (lines 9-20 of the source;
each source line ends in a backslash-newline, which the C preprocessor removes,
so the literal holds blanks and no line break). -/
def schema : String :=
  "                                          " ++
  "    [                                                           " ++
  "        \x7b                                                       " ++
  "            \"name\": \"current_time\",                         " ++
  "            \"description\": \"Get the current date and time\", " ++
  "            \"parameters\": \x7b                                   " ++
  "                \"type\": \"object\",                           " ++
  "                \"properties\": \x7b\x7d                              " ++
  "            \x7d                                                   " ++
  "        \x7d                                                       " ++
  "    ]                                                           "

/-- The process state the plugin works on: the string the global pointer
`schema` points to, and the heap. -/
structure World where
  schema : List Byte
  heap : Heap
  deriving DecidableEq, Repr

/-- The state once the plugin library is loaded, with the heap the host has. -/
def World.loaded (heap : Heap) : World :=
  { schema := cbytes Dial.schema, heap := heap }

/-- Outputs of `dial_plugin_init`. -/
structure InitOut where
  status : Int
  handle : Option Ptr
  deriving DecidableEq, Repr

/-- `dial_plugin_init`: `*handle = NULL; return DIAL_PLUGIN_SUCCESS;`. -/
def dial_plugin_init (_args_len : Nat) (_args : List Byte) : InitOut :=
  { status := DIAL_PLUGIN_SUCCESS, handle := some NULL }

/-- `dial_plugin_deinit`: the body is empty. -/
def dial_plugin_deinit (w : World) (_handle : Ptr) : World :=
  w

/-- Outputs of `dial_plugin_schema`; `schema_str` is the string pointed to. -/
structure SchemaOut where
  status : Int
  schema_len : Option Nat
  schema_str : Option (List Byte)
  deriving DecidableEq, Repr

/-- `dial_plugin_schema`:
`*schema_len = strlen(schema); *schema_str = schema; return DIAL_PLUGIN_SUCCESS;`. -/
def dial_plugin_schema (w : World) (_handle : Ptr) : SchemaOut :=
  { status := DIAL_PLUGIN_SUCCESS
    schema_len := some (strlen w.schema)
    schema_str := some w.schema }

/-- Outputs of `dial_plugin_invoke`, with the state it leaves. -/
structure InvokeOut where
  status : Int
  result_len : Option Nat
  result : Option Ptr
  world : World
  deriving DecidableEq, Repr

/-- `dial_plugin_invoke`: reads the clock, formats it, sets `*result_len` to the
length of the text, allocates that many bytes into `*result`, returns
`DIAL_PLUGIN_ERROR_OUT_OF_MEMORY` when the allocation gave `NULL`, and otherwise
copies the string with `strcpy` and returns `DIAL_PLUGIN_SUCCESS`.  The handle,
the function name and the arguments are not read. -/
def dial_plugin_invoke (w : World) (sys : Sys) (_handle : Ptr)
    (_fn_name_len : Nat) (_fn_name : List Byte)
    (_args_len : Nat) (_args : List Byte) : InvokeOut :=
  let current_time := sys.time
  let str := sys.ctime current_time
  let len := strlen str
  let m := w.heap.malloc (1 * len) (sys.malloc (1 * len))
  if m.2 = NULL then
    { status := DIAL_PLUGIN_ERROR_OUT_OF_MEMORY
      result_len := some len
      result := some m.2
      world := { w with heap := m.1 } }
  else
    { status := DIAL_PLUGIN_SUCCESS
      result_len := some len
      result := some m.2
      world := { w with heap := m.1.strcpy m.2 str } }

/-- `dial_plugin_free_result`: `free(result);`. -/
def dial_plugin_free_result (w : World) (_handle : Ptr) (_result_len : Nat)
    (result : Ptr) : World :=
  { w with heap := w.heap.free result }

/-! ## Calls made by a host on one handle -/

/-- A call the host makes on an initialized handle. -/
inductive Call where
  | schema
  | invoke (sys : Sys) (fn_name_len : Nat) (fn_name : List Byte)
      (args_len : Nat) (args : List Byte)
  | free_result (result_len : Nat) (result : Ptr)

/-- The state a call leaves. -/
def World.call (w : World) (handle : Ptr) : Call → World
  | .schema => w
  | .invoke sys fn_name_len fn_name args_len args =>
    (dial_plugin_invoke w sys handle fn_name_len fn_name args_len args).world
  | .free_result result_len result => dial_plugin_free_result w handle result_len result

/-- The state a sequence of calls leaves. -/
def World.run (w : World) (handle : Ptr) (cs : List Call) : World :=
  cs.foldl (fun w c => w.call handle c) w

/-- Modelled from the spec: the lifecycle of a handle as the host keeps it
(section 4.1: Uninitialized, Initialized, Deinitialized); the host is not among
the sources and the plugin stores no such state. -/
inductive Phase where
  | Uninitialized
  | Initialized
  | Deinitialized
  deriving DecidableEq, Repr

/-- Modelled from the spec: what the host holds for one handle. -/
structure Session where
  phase : Phase
  handle : Option Ptr
  world : World
  deriving DecidableEq, Repr

/-- Modelled from the spec: a step of the host. -/
inductive HostCall where
  | init (args_len : Nat) (args : List Byte)
  | call (c : Call)
  | deinit

/-- A session before `dial_plugin_init`. -/
def Session.fresh (w : World) : Session :=
  { phase := .Uninitialized, handle := none, world := w }

/-- Modelled from the spec: one step of the host on a handle, running the
plugin's entry point.  `none` is a call the contract does not allow in the
current phase: `init` is allowed once, in `Uninitialized`; every other call only
in `Initialized`; nothing after `deinit`. -/
def Session.step (s : Session) : HostCall → Option Session
  | .init args_len args =>
    match s.phase with
    | .Uninitialized =>
      let r := dial_plugin_init args_len args
      if r.status = DIAL_PLUGIN_SUCCESS then
        some { s with phase := .Initialized, handle := r.handle }
      else
        some { s with handle := r.handle }
    | _ => none
  | .call c =>
    match s.phase, s.handle with
    | .Initialized, some hd => some { s with world := s.world.call hd c }
    | _, _ => none
  | .deinit =>
    match s.phase, s.handle with
    | .Initialized, some hd =>
      some { s with phase := .Deinitialized, world := dial_plugin_deinit s.world hd }
    | _, _ => none

/-- Steps of the host in sequence. -/
def Session.steps (s : Session) : List HostCall → Option Session
  | [] => some s
  | c :: cs => (s.step c).bind (fun t => t.steps cs)

/-! ## The schema as JSON text -/

/-- JSON text without the whitespace that stands outside string literals.
`inStr` says the scan is inside a string literal, `esc` that the previous byte
was a backslash of that literal. -/
def stripWs : Bool → Bool → List Byte → List Byte
  | _, _, [] => []
  | false, _, c :: cs =>
    if c = 32 ∨ c = 9 ∨ c = 10 ∨ c = 13 then stripWs false false cs
    else c :: stripWs (c == 34) false cs
  | true, true, c :: cs => c :: stripWs true false cs
  | true, false, c :: cs => c :: stripWs (c != 34) (c == 92) cs

/-- The text the host reads from the outputs of `dial_plugin_schema`: the first
`*schema_len` bytes of `*schema_str`. -/
def SchemaOut.text (r : SchemaOut) : Option (List Byte) :=
  match r.schema_len, r.schema_str with
  | some n, some s => some (s.take n)
  | _, _ => none

mutual
/-- A JSON value built from strings, arrays and objects. -/
inductive Json where
  | str (s : String)
  | arr (xs : JsonList)
  | obj (ms : JsonMembers)
/-- The elements of a JSON array. -/
inductive JsonList where
  | nil
  | cons (x : Json) (xs : JsonList)
/-- The members of a JSON object. -/
inductive JsonMembers where
  | nil
  | cons (key : String) (value : Json) (ms : JsonMembers)
end

mutual
/-- The JSON text of a value, without whitespace between tokens. -/
def Json.render : Json → List Byte
  | .str s => 34 :: cbytes s ++ [34]
  | .arr xs => 91 :: xs.render ++ [93]
  | .obj ms => 123 :: ms.render ++ [125]
/-- The elements of an array, separated by commas. -/
def JsonList.render : JsonList → List Byte
  | .nil => []
  | .cons x .nil => x.render
  | .cons x xs => x.render ++ 44 :: xs.render
/-- The members of an object, separated by commas. -/
def JsonMembers.render : JsonMembers → List Byte
  | .nil => []
  | .cons k v .nil => 34 :: cbytes k ++ 34 :: 58 :: v.render
  | .cons k v ms => 34 :: cbytes k ++ 34 :: 58 :: v.render ++ 44 :: ms.render
end

/-! ## The error message of a handle -/

/-- Modelled from the spec: the diagnostic string associated with a handle
(section 3, "Error message"); `dial-plugin.h` declares
`dial_plugin_last_error_message` and the example plugin neither defines it nor
keeps such a string. -/
structure ErrorState where
  last_error : Option (List Byte)
  deriving DecidableEq, Repr

/-- Modelled from the spec: a handle on which no call has failed has no
diagnostic. -/
def ErrorState.fresh : ErrorState :=
  { last_error := none }

/-- Modelled from the spec: the effect of a completed call with the given status
and diagnostic on the error message: a failing call (negative status)
overwrites it, a successful call leaves it. -/
def ErrorState.record (e : ErrorState) (call : Int × List Byte) : ErrorState :=
  if call.1 < 0 then { last_error := some call.2 } else e

/-- Modelled from the spec: `dial_plugin_last_error_message`, absent from the
example plugin: returns the diagnostic of the handle, `none` being the absent
value. -/
def dial_plugin_last_error_message (e : ErrorState) (_handle : Ptr) :
    Option (List Byte) :=
  e.last_error

/-! ## Sample inputs -/

/-- The buffer `ctime` returns for the epoch in UTC. -/
def epochText : List Byte :=
  cbytes "Thu Jan  1 00:00:00 1970\n"

/-- A C library whose clock reads 0, whose `ctime` gives `epochText` and whose
`malloc` answers the address `4096`. -/
def sysOk : Sys :=
  { time := 0, ctime := fun _ => epochText, malloc := fun _ => 4096 }

/-- The same C library with a failing `malloc`. -/
def sysOom : Sys :=
  { time := 0, ctime := fun _ => epochText, malloc := fun _ => NULL }



/-! ## Lemmas on the heap -/

theorem storeBytes_append (h : Heap) (p : Ptr) (off : Nat) (xs ys : List Byte) :
    h.storeBytes p off (xs ++ ys) = (h.storeBytes p off xs).storeBytes p (off + xs.length) ys := by
  induction xs generalizing h off with
  | nil => simp [Heap.storeBytes]
  | cons x xs ih =>
    show (h.store p off x).storeBytes p (off + 1) (xs ++ ys) = _
    rw [ih]
    simp only [Heap.storeBytes, List.length_cons]
    congr 1
    omega

theorem store_head_inside (h : Heap) (p : Ptr) (pre suf rest : List (Option Byte))
    (x : Option Byte) (tl : List Block) (b : Byte)
    (hb : h.blocks = (p, pre ++ x :: suf) :: tl) (hrest : rest = suf) :
    h.store p pre.length b = { h with blocks := (p, (pre ++ [some b]) ++ rest) :: tl } := by
  subst hrest
  simp [Heap.store, storeBlocks, hb, List.set_append]

theorem store_head_outside (h : Heap) (p : Ptr) (d : List (Option Byte)) (tl : List Block)
    (off : Nat) (b : Byte) (hb : h.blocks = (p, d) :: tl) (ho : d.length ≤ off) :
    h.store p off b = { h with stray := h.stray ++ [(p, off, b)] } := by
  have : ¬ off < d.length := by omega
  simp [Heap.store, storeBlocks, hb, this]

theorem storeBytes_fill (bs : List Byte) :
    ∀ (h : Heap) (p : Ptr) (pre suf : List (Option Byte)) (tl : List Block),
      h.blocks = (p, pre ++ suf) :: tl → bs.length ≤ suf.length →
      h.storeBytes p pre.length bs =
        { h with blocks := (p, pre ++ bs.map some ++ suf.drop bs.length) :: tl } := by
  induction bs with
  | nil =>
    intro h p pre suf tl hb _
    simp [Heap.storeBytes, ← hb]
  | cons b bs ih =>
    intro h p pre suf tl hb hl
    cases suf with
    | nil => simp at hl
    | cons x suf =>
      simp only [Heap.storeBytes]
      rw [store_head_inside h p pre suf suf x tl b hb rfl]
      have := ih { h with blocks := (p, (pre ++ [some b]) ++ suf) :: tl } p (pre ++ [some b]) suf tl rfl
        (by simpa using hl)
      simp only [List.length_append, List.length_singleton] at this
      rw [this]
      simp


theorem strcpy_fresh (h : Heap) (p : Ptr) (str : List Byte) :
    ({ h with blocks := (p, List.replicate (strlen str) none) :: h.blocks } : Heap).strcpy p str =
      { blocks := (p, (cstr str).map some) :: h.blocks
        stray := h.stray ++ [(p, strlen str, 0)]
        bad_free := h.bad_free } := by
  unfold Heap.strcpy
  rw [storeBytes_append]
  have hfill := storeBytes_fill (cstr str)
    { h with blocks := (p, List.replicate (strlen str) none) :: h.blocks } p []
    (List.replicate (strlen str) none) h.blocks rfl (by simp [strlen])
  simp only [List.length_nil, List.nil_append] at hfill
  rw [hfill]
  have hdrop : List.drop (cstr str).length (List.replicate (strlen str) (none : Option Byte)) = [] := by
    simp [strlen]
  rw [hdrop, List.append_nil]
  simp only [Heap.storeBytes, Nat.zero_add]
  rw [store_head_outside _ p ((cstr str).map some) h.blocks (cstr str).length 0 rfl (by simp)]
  rfl

/-- What `dial_plugin_invoke` does when `malloc` answers `NULL`. -/
theorem invoke_of_null (w : World) (sys : Sys) (handle : Ptr) (fn_name_len : Nat)
    (fn_name : List Byte) (args_len : Nat) (args : List Byte)
    (hnull : sys.malloc (strlen (sys.ctime sys.time)) = NULL) :
    dial_plugin_invoke w sys handle fn_name_len fn_name args_len args =
      { status := DIAL_PLUGIN_ERROR_OUT_OF_MEMORY
        result_len := some (strlen (sys.ctime sys.time))
        result := some NULL
        world := w } := by
  simp [dial_plugin_invoke, Heap.malloc, hnull]

/-- What `dial_plugin_invoke` does when `malloc` answers a block. -/
theorem invoke_of_block (w : World) (sys : Sys) (handle : Ptr) (fn_name_len : Nat)
    (fn_name : List Byte) (args_len : Nat) (args : List Byte)
    (hblock : sys.malloc (strlen (sys.ctime sys.time)) ≠ NULL) :
    dial_plugin_invoke w sys handle fn_name_len fn_name args_len args =
      { status := DIAL_PLUGIN_SUCCESS
        result_len := some (strlen (sys.ctime sys.time))
        result := some (sys.malloc (strlen (sys.ctime sys.time)))
        world :=
          { w with
            heap :=
              { blocks := (sys.malloc (strlen (sys.ctime sys.time)),
                  (cstr (sys.ctime sys.time)).map some) :: w.heap.blocks
                stray := w.heap.stray ++
                  [(sys.malloc (strlen (sys.ctime sys.time)), strlen (sys.ctime sys.time), 0)]
                bad_free := w.heap.bad_free } } } := by
  simp only [dial_plugin_invoke, Heap.malloc, Nat.one_mul, if_neg hblock]
  rw [strcpy_fresh]


theorem call_schema (w : World) (handle : Ptr) (c : Call) :
    (w.call handle c).schema = w.schema := by
  cases c with
  | schema => rfl
  | invoke sys fn_name_len fn_name args_len args =>
    simp only [World.call, dial_plugin_invoke]
    split <;> rfl
  | free_result result_len result => rfl

theorem run_schema (cs : List Call) :
    ∀ (w : World) (handle : Ptr), (w.run handle cs).schema = w.schema := by
  induction cs with
  | nil => intro w handle; rfl
  | cons c cs ih =>
    intro w handle
    show ((w.call handle c).run handle cs).schema = w.schema
    rw [ih, call_schema]

set_option maxRecDepth 100000 in
theorem strlen_schema : strlen (cbytes schema) = 666 := by decide

set_option maxRecDepth 100000 in
theorem length_schema : (cbytes schema).length = 666 := by decide

set_option maxRecDepth 100000 in
/-- Every character of the schema literal is ASCII, so `cbytes schema` is the
byte string the C compiler stores for it. -/
theorem schema_ascii : ∀ b ∈ cbytes schema, 0 < b ∧ b < 128 := by decide

theorem steps_calls (cs : List Call) :
    ∀ (s : Session) (hd : Ptr) (rest : List HostCall),
      s.phase = .Initialized → s.handle = some hd →
      s.steps (cs.map HostCall.call ++ rest) =
        Session.steps { s with world := s.world.run hd cs } rest := by
  induction cs with
  | nil => intro s hd rest _ _; rfl
  | cons c cs ih =>
    intro s hd rest hp hh
    have hstep : s.step (.call c) = some { s with world := s.world.call hd c } := by
      simp [Session.step, hp, hh]
    show ((s.step (.call c)).bind fun t => t.steps (cs.map HostCall.call ++ rest)) = _
    rw [hstep, Option.some_bind, ih { s with world := s.world.call hd c } hd rest hp hh]
    rfl

theorem record_foldl (history : List (Int × List Byte)) :
    ∀ e : ErrorState,
      (history.foldl ErrorState.record e).last_error =
        match (history.filter (fun c => decide (c.1 < 0))).getLast? with
        | some c => some c.2
        | none => e.last_error := by
  induction history with
  | nil => intro e; rfl
  | cons c cs ih =>
    intro e
    simp only [List.foldl_cons]
    rw [ih]
    by_cases hc : c.1 < 0
    · simp only [List.filter_cons, hc, decide_True, if_true, List.getLast?_cons,
        ErrorState.record]
      cases (cs.filter (fun c => decide (c.1 < 0))).getLast? <;> rfl
    · simp only [List.filter_cons, hc, decide_False, ErrorState.record]
      rfl


/-! ## The claims -/

/-- C1, as stated, fails: on the handle `dial_plugin_init` gives, invoking the
name "nonexistent_fn" with a working allocator returns `DIAL_PLUGIN_SUCCESS`,
not `DIAL_PLUGIN_ERROR_INVOKE`, and writes both `*result` and `*result_len`. -/
theorem invoke_nonexistent_fn_succeeds :
    (dial_plugin_init 0 []).status = DIAL_PLUGIN_SUCCESS ∧
    (dial_plugin_init 0 []).handle = some NULL ∧
    (dial_plugin_invoke (World.loaded Heap.empty) sysOk NULL 14
        (cbytes "nonexistent_fn") 0 []).status = DIAL_PLUGIN_SUCCESS ∧
    (dial_plugin_invoke (World.loaded Heap.empty) sysOk NULL 14
        (cbytes "nonexistent_fn") 0 []).result = some 4096 ∧
    (dial_plugin_invoke (World.loaded Heap.empty) sysOk NULL 14
        (cbytes "nonexistent_fn") 0 []).result_len = some 25 ∧
    ¬ ((dial_plugin_invoke (World.loaded Heap.empty) sysOk NULL 14
          (cbytes "nonexistent_fn") 0 []).status = DIAL_PLUGIN_ERROR_INVOKE ∧
       (dial_plugin_invoke (World.loaded Heap.empty) sysOk NULL 14
          (cbytes "nonexistent_fn") 0 []).result = none ∧
       (dial_plugin_invoke (World.loaded Heap.empty) sysOk NULL 14
          (cbytes "nonexistent_fn") 0 []).result_len = none) := by
  decide

/-- C1, amended: `dial_plugin_invoke` does not read the function name.  For every
state, handle and name it does exactly what it does for "current_time": it
writes `*result_len` (the length of the timestamp) and `*result` (the answer of
`malloc`), returns `DIAL_PLUGIN_ERROR_OUT_OF_MEMORY` when that answer is `NULL`
and `DIAL_PLUGIN_SUCCESS` otherwise, and never `DIAL_PLUGIN_ERROR_INVOKE`. -/
theorem invoke_ignores_fn_name (w : World) (sys : Sys) (handle : Ptr) (fn_name_len : Nat)
    (fn_name : List Byte) (args_len : Nat) (args : List Byte) :
    dial_plugin_invoke w sys handle fn_name_len fn_name args_len args =
      dial_plugin_invoke w sys handle 12 (cbytes "current_time") args_len args ∧
    (dial_plugin_invoke w sys handle fn_name_len fn_name args_len args).status =
      (if sys.malloc (strlen (sys.ctime sys.time)) = NULL
        then DIAL_PLUGIN_ERROR_OUT_OF_MEMORY else DIAL_PLUGIN_SUCCESS) ∧
    (dial_plugin_invoke w sys handle fn_name_len fn_name args_len args).status ≠
      DIAL_PLUGIN_ERROR_INVOKE ∧
    (dial_plugin_invoke w sys handle fn_name_len fn_name args_len args).result_len =
      some (strlen (sys.ctime sys.time)) ∧
    (dial_plugin_invoke w sys handle fn_name_len fn_name args_len args).result =
      some (sys.malloc (strlen (sys.ctime sys.time))) := by
  refine ⟨rfl, ?_⟩
  by_cases hm : sys.malloc (strlen (sys.ctime sys.time)) = NULL
  · rw [invoke_of_null w sys handle fn_name_len fn_name args_len args hm, if_pos hm]
    refine ⟨rfl, ?_, rfl, by rw [hm]⟩
    show DIAL_PLUGIN_ERROR_OUT_OF_MEMORY ≠ DIAL_PLUGIN_ERROR_INVOKE
    decide
  · rw [invoke_of_block w sys handle fn_name_len fn_name args_len args hm, if_neg hm]
    refine ⟨rfl, ?_, rfl, rfl⟩
    show DIAL_PLUGIN_SUCCESS ≠ DIAL_PLUGIN_ERROR_INVOKE
    decide

/-- C2: when the allocation succeeds, `dial_plugin_invoke` with the name
"current_time" returns `DIAL_PLUGIN_SUCCESS`, sets `*result` to the non-null
block `malloc` gave and `*result_len` to the number of bytes of the text `ctime`
produced (terminator not counted), and the first `*result_len` bytes of that block
are that text; so when the text ends in a newline the result is non-empty and
its last byte is a newline. -/
theorem invoke_current_time_success (w : World) (sys : Sys) (handle : Ptr)
    (args_len : Nat) (args : List Byte)
    (halloc : sys.malloc (strlen (sys.ctime sys.time)) ≠ NULL) :
    (dial_plugin_invoke w sys handle 12 (cbytes "current_time") args_len args).status =
      DIAL_PLUGIN_SUCCESS ∧
    (dial_plugin_invoke w sys handle 12 (cbytes "current_time") args_len args).result =
      some (sys.malloc (strlen (sys.ctime sys.time))) ∧
    (dial_plugin_invoke w sys handle 12 (cbytes "current_time") args_len args).result_len =
      some (cstr (sys.ctime sys.time)).length ∧
    (dial_plugin_invoke w sys handle 12 (cbytes "current_time") args_len args).world.heap.read
        (sys.malloc (strlen (sys.ctime sys.time))) (cstr (sys.ctime sys.time)).length =
      some ((cstr (sys.ctime sys.time)).map some) ∧
    ((cstr (sys.ctime sys.time)).getLast? = some 10 →
      0 < (cstr (sys.ctime sys.time)).length ∧
      ((cstr (sys.ctime sys.time)).map some).getLast? = some (some 10)) := by
  rw [invoke_of_block w sys handle 12 (cbytes "current_time") args_len args halloc]
  refine ⟨rfl, rfl, rfl, ?_, ?_⟩
  · simp [Heap.read, Heap.block]
  · intro hlast
    constructor
    · cases hc : cstr (sys.ctime sys.time) with
      | nil => rw [hc] at hlast; simp at hlast
      | cons x xs => simp
    · simp [List.getLast?_map, hlast]

/-- C2 at the epoch text with an allocator that answers 4096. -/
theorem invoke_current_time_success_witness :
    sysOk.malloc (strlen (sysOk.ctime sysOk.time)) ≠ NULL ∧
    (dial_plugin_invoke (World.loaded Heap.empty) sysOk NULL 12 (cbytes "current_time")
        0 []).status = DIAL_PLUGIN_SUCCESS ∧
    (dial_plugin_invoke (World.loaded Heap.empty) sysOk NULL 12 (cbytes "current_time")
        0 []).result = some 4096 ∧
    (dial_plugin_invoke (World.loaded Heap.empty) sysOk NULL 12 (cbytes "current_time")
        0 []).result_len = some 25 ∧
    (dial_plugin_invoke (World.loaded Heap.empty) sysOk NULL 12 (cbytes "current_time")
        0 []).world.heap.read 4096 25 = some (epochText.map some) ∧
    (epochText.map some).getLast? = some (some 10) :=
  have h := invoke_current_time_success (World.loaded Heap.empty) sysOk NULL 0 []
    (by decide)
  ⟨by decide, h.1, h.2.1, h.2.2.1, h.2.2.2.1, (h.2.2.2.2 (by decide)).2⟩

/-- C3: when the allocation of the result buffer fails, `dial_plugin_invoke`
returns `DIAL_PLUGIN_ERROR_OUT_OF_MEMORY`, `*result` is `NULL`, and the state is
the one before the call: no block was added, nothing was copied. -/
theorem invoke_out_of_memory (w : World) (sys : Sys) (handle : Ptr) (fn_name_len : Nat)
    (fn_name : List Byte) (args_len : Nat) (args : List Byte)
    (hfail : sys.malloc (strlen (sys.ctime sys.time)) = NULL) :
    (dial_plugin_invoke w sys handle fn_name_len fn_name args_len args).status =
      DIAL_PLUGIN_ERROR_OUT_OF_MEMORY ∧
    DIAL_PLUGIN_ERROR_OUT_OF_MEMORY = -2 ∧
    (dial_plugin_invoke w sys handle fn_name_len fn_name args_len args).result = some NULL ∧
    (dial_plugin_invoke w sys handle fn_name_len fn_name args_len args).world = w := by
  rw [invoke_of_null w sys handle fn_name_len fn_name args_len args hfail]
  exact ⟨rfl, rfl, rfl, rfl⟩

/-- C3 with a failing allocator, on a heap that already holds a block. -/
theorem invoke_out_of_memory_witness :
    sysOom.malloc (strlen (sysOom.ctime sysOom.time)) = NULL ∧
    (dial_plugin_invoke (World.loaded { Heap.empty with blocks := [(64, [some 7])] }) sysOom
        NULL 12 (cbytes "current_time") 0 []).status = -2 ∧
    (dial_plugin_invoke (World.loaded { Heap.empty with blocks := [(64, [some 7])] }) sysOom
        NULL 12 (cbytes "current_time") 0 []).result = some NULL ∧
    (dial_plugin_invoke (World.loaded { Heap.empty with blocks := [(64, [some 7])] }) sysOom
        NULL 12 (cbytes "current_time") 0 []).world =
      World.loaded { Heap.empty with blocks := [(64, [some 7])] } :=
  have h := invoke_out_of_memory
    (World.loaded { Heap.empty with blocks := [(64, [some 7])] }) sysOom NULL 12
    (cbytes "current_time") 0 [] (by decide)
  ⟨by decide, h.1, h.2.2.1, h.2.2.2⟩

/-- C4: on the loaded plugin, `dial_plugin_schema` after any sequence of
`dial_plugin_schema` / `dial_plugin_invoke` / `dial_plugin_free_result` calls
(the empty one included) gives the outputs it gave before them: the status
`DIAL_PLUGIN_SUCCESS`, never `DIAL_PLUGIN_ERROR_SCHEMA`, the same `*schema_len`,
which is the number of bytes of the schema literal (666), and the same bytes. -/
theorem schema_stable (heap : Heap) (handle : Ptr) (cs : List Call) :
    dial_plugin_schema ((World.loaded heap).run handle cs) handle =
      dial_plugin_schema (World.loaded heap) handle ∧
    (dial_plugin_schema (World.loaded heap) handle).status = DIAL_PLUGIN_SUCCESS ∧
    (dial_plugin_schema (World.loaded heap) handle).status ≠ DIAL_PLUGIN_ERROR_SCHEMA ∧
    (dial_plugin_schema (World.loaded heap) handle).schema_len =
      some (cbytes schema).length ∧
    (cbytes schema).length = 666 ∧
    (dial_plugin_schema (World.loaded heap) handle).text = some (cbytes schema) := by
  refine ⟨?_, rfl, ?_, ?_, length_schema, ?_⟩
  · simp only [dial_plugin_schema, run_schema]
  · show DIAL_PLUGIN_SUCCESS ≠ DIAL_PLUGIN_ERROR_SCHEMA
    decide
  · show some (strlen (cbytes schema)) = some (cbytes schema).length
    rw [strlen_schema, length_schema]
  · show some ((cbytes schema).take (strlen (cbytes schema))) = some (cbytes schema)
    rw [strlen_schema, ← length_schema, List.take_length]

set_option maxRecDepth 100000 in
/-- C5: the text `dial_plugin_schema` returns is, once the whitespace outside
string literals is removed, the JSON text
`[{"name":"current_time","description":"Get the current date and time","parameters":{"type":"object","properties":{}}}]`,
which is the rendering of an array of exactly one descriptor, named
"current_time", whose parameters have an empty "properties" object. -/
theorem schema_is_one_current_time_descriptor (heap : Heap) (handle : Ptr) :
    (dial_plugin_schema (World.loaded heap) handle).text.map (stripWs false false) =
      some (cbytes ("[\x7b\"name\":\"current_time\"," ++
        "\"description\":\"Get the current date and time\"," ++
        "\"parameters\":\x7b\"type\":\"object\",\"properties\":\x7b\x7d\x7d\x7d]")) ∧
    cbytes ("[\x7b\"name\":\"current_time\"," ++
        "\"description\":\"Get the current date and time\"," ++
        "\"parameters\":\x7b\"type\":\"object\",\"properties\":\x7b\x7d\x7d\x7d]") =
      Json.render (.arr (.cons
        (.obj (.cons "name" (.str "current_time")
          (.cons "description" (.str "Get the current date and time")
            (.cons "parameters"
              (.obj (.cons "type" (.str "object") (.cons "properties" (.obj .nil) .nil)))
              .nil))))
        .nil)) := by
  constructor
  · have htext : (dial_plugin_schema (World.loaded heap) handle).text = some (cbytes schema) := by
      show some ((cbytes schema).take (strlen (cbytes schema))) = some (cbytes schema)
      rw [strlen_schema, ← length_schema, List.take_length]
    rw [htext]
    decide
  · decide

/-- C6, as stated, fails: `dial_plugin_init` on the empty buffer returns
`DIAL_PLUGIN_SUCCESS` and writes the handle `NULL`, and with that handle
`dial_plugin_schema` succeeds, but `dial_plugin_invoke` of "current_time" does
not succeed when `malloc` answers `NULL`: it returns
`DIAL_PLUGIN_ERROR_OUT_OF_MEMORY` (-2). -/
theorem init_then_invoke_out_of_memory :
    (dial_plugin_init 0 []).status = DIAL_PLUGIN_SUCCESS ∧
    (dial_plugin_init 0 []).handle = some NULL ∧
    (dial_plugin_schema (World.loaded Heap.empty) NULL).status = DIAL_PLUGIN_SUCCESS ∧
    (dial_plugin_invoke (World.loaded Heap.empty) sysOom NULL 12 (cbytes "current_time")
        0 []).status = -2 ∧
    ¬ ((dial_plugin_invoke (World.loaded Heap.empty) sysOom NULL 12 (cbytes "current_time")
        0 []).status = DIAL_PLUGIN_SUCCESS) := by
  decide

/-- C6, amended: for every configuration buffer, the empty one included,
`dial_plugin_init` returns `DIAL_PLUGIN_SUCCESS` (never a failure status) and
writes a handle, `NULL`; with that handle `dial_plugin_schema` returns
`DIAL_PLUGIN_SUCCESS` in every state, and `dial_plugin_invoke` of
"current_time" returns `DIAL_PLUGIN_SUCCESS` whenever the allocation of its
result buffer succeeds and `DIAL_PLUGIN_ERROR_OUT_OF_MEMORY` when it fails. -/
theorem init_gives_usable_handle (args_len : Nat) (args : List Byte) (w : World) (sys : Sys)
    (iargs_len : Nat) (iargs : List Byte) :
    (dial_plugin_init args_len args).status = DIAL_PLUGIN_SUCCESS ∧
    ∃ hd : Ptr, (dial_plugin_init args_len args).handle = some hd ∧
      (dial_plugin_schema w hd).status = DIAL_PLUGIN_SUCCESS ∧
      (dial_plugin_invoke w sys hd 12 (cbytes "current_time") iargs_len iargs).status =
        (if sys.malloc (strlen (sys.ctime sys.time)) = NULL
          then DIAL_PLUGIN_ERROR_OUT_OF_MEMORY else DIAL_PLUGIN_SUCCESS) := by
  refine ⟨rfl, NULL, rfl, rfl, ?_⟩
  by_cases hm : sys.malloc (strlen (sys.ctime sys.time)) = NULL
  · rw [invoke_of_null w sys NULL 12 (cbytes "current_time") iargs_len iargs hm, if_pos hm]
  · rw [invoke_of_block w sys NULL 12 (cbytes "current_time") iargs_len iargs hm, if_neg hm]

/-- C7: `DialPluginResult` has six members, with the values 0, -1, -2, -3, -4
and -5, pairwise distinct; a member denotes failure exactly when its value is
negative; and every status `dial_plugin_init`, `dial_plugin_schema` and
`dial_plugin_invoke` return is the value of a member. -/
theorem status_enumeration :
    Fintype.card DialPluginResult = 6 ∧
    DialPluginResult.DIAL_PLUGIN_SUCCESS.toInt = 0 ∧
    DialPluginResult.DIAL_PLUGIN_ERROR_UNKNOWN.toInt = -1 ∧
    DialPluginResult.DIAL_PLUGIN_ERROR_OUT_OF_MEMORY.toInt = -2 ∧
    DialPluginResult.DIAL_PLUGIN_ERROR_INIT.toInt = -3 ∧
    DialPluginResult.DIAL_PLUGIN_ERROR_SCHEMA.toInt = -4 ∧
    DialPluginResult.DIAL_PLUGIN_ERROR_INVOKE.toInt = -5 ∧
    Function.Injective DialPluginResult.toInt ∧
    (∀ r : DialPluginResult, r.isFailure = true ↔ r.toInt < 0) ∧
    (∀ (args_len : Nat) (args : List Byte),
      ∃ r : DialPluginResult, (dial_plugin_init args_len args).status = r.toInt) ∧
    (∀ (w : World) (handle : Ptr),
      ∃ r : DialPluginResult, (dial_plugin_schema w handle).status = r.toInt) ∧
    (∀ (w : World) (sys : Sys) (handle : Ptr) (fn_name_len : Nat) (fn_name : List Byte)
        (args_len : Nat) (args : List Byte),
      ∃ r : DialPluginResult,
        (dial_plugin_invoke w sys handle fn_name_len fn_name args_len args).status =
          r.toInt) := by
  refine ⟨by decide, rfl, rfl, rfl, rfl, rfl, rfl, ?_, ?_, ?_, ?_, ?_⟩
  · intro a b hab
    cases a <;> cases b <;> first | rfl | (exact absurd hab (by decide))
  · intro r
    cases r <;> decide
  · intro args_len args
    exact ⟨.DIAL_PLUGIN_SUCCESS, rfl⟩
  · intro w handle
    exact ⟨.DIAL_PLUGIN_SUCCESS, rfl⟩
  · intro w sys handle fn_name_len fn_name args_len args
    by_cases hm : sys.malloc (strlen (sys.ctime sys.time)) = NULL
    · rw [invoke_of_null w sys handle fn_name_len fn_name args_len args hm]
      exact ⟨.DIAL_PLUGIN_ERROR_OUT_OF_MEMORY, rfl⟩
    · rw [invoke_of_block w sys handle fn_name_len fn_name args_len args hm]
      exact ⟨.DIAL_PLUGIN_SUCCESS, rfl⟩

/-- C8: after any history of completed calls on a handle, each with its status
and its diagnostic, `dial_plugin_last_error_message` returns the diagnostic of
the most recent failing call of the history, and the absent value when no call
of the history failed. -/
theorem last_error_message_is_latest_failure (history : List (Int × List Byte))
    (handle : Ptr) :
    dial_plugin_last_error_message (history.foldl ErrorState.record ErrorState.fresh) handle =
      ((history.filter (fun c => decide (c.1 < 0))).getLast?).map Prod.snd := by
  show (history.foldl ErrorState.record ErrorState.fresh).last_error = _
  rw [record_foldl]
  cases (history.filter (fun c => decide (c.1 < 0))).getLast? <;> rfl

/-- C9: after a successful `dial_plugin_init`, and after any sequence of
`dial_plugin_schema` / `dial_plugin_invoke` / `dial_plugin_free_result` calls
(the empty one included), the handle is `Initialized` and `dial_plugin_deinit`
is defined: it leaves the state as it found it (no stray store, no bad `free`)
and moves the handle to `Deinitialized`, after which no call is allowed. -/
theorem deinit_after_any_calls (w : World) (args_len : Nat) (args : List Byte)
    (cs : List Call) :
    (Session.fresh w).steps (.init args_len args :: cs.map HostCall.call) =
      some { phase := .Initialized, handle := some NULL, world := w.run NULL cs } ∧
    (Session.fresh w).steps (.init args_len args :: (cs.map HostCall.call ++ [.deinit])) =
      some { phase := .Deinitialized, handle := some NULL, world := w.run NULL cs } ∧
    dial_plugin_deinit (w.run NULL cs) NULL = w.run NULL cs ∧
    ∀ c : HostCall,
      Session.step { phase := .Deinitialized, handle := some NULL, world := w.run NULL cs }
        c = none := by
  have hinit : (Session.fresh w).step (.init args_len args) =
      some { phase := .Initialized, handle := some NULL, world := w } := by
    simp [Session.step, Session.fresh, dial_plugin_init]
  refine ⟨?_, ?_, rfl, ?_⟩
  · show ((Session.fresh w).step (.init args_len args)).bind
        (fun t => t.steps (cs.map HostCall.call)) = _
    rw [hinit, Option.some_bind]
    have h := steps_calls cs { phase := .Initialized, handle := some NULL, world := w } NULL []
      rfl rfl
    rw [List.append_nil] at h
    rw [h]
    rfl
  · show ((Session.fresh w).step (.init args_len args)).bind
        (fun t => t.steps (cs.map HostCall.call ++ [.deinit])) = _
    rw [hinit, Option.some_bind]
    rw [steps_calls cs { phase := .Initialized, handle := some NULL, world := w } NULL
      [.deinit] rfl rfl]
    rfl
  · intro c
    cases c <;> rfl

/-- C10 fails on the code: with the 25-byte text `ctime` gives for the epoch,
`dial_plugin_invoke` allocates a block of 25 bytes and `strcpy` stores 26 bytes,
the text and its terminator; the terminator goes to offset 25 of the block,
one byte past its end. -/
theorem invoke_terminator_past_block :
    (dial_plugin_invoke (World.loaded Heap.empty) sysOk NULL 12 (cbytes "current_time")
        0 []).status = DIAL_PLUGIN_SUCCESS ∧
    (dial_plugin_invoke (World.loaded Heap.empty) sysOk NULL 12 (cbytes "current_time")
        0 []).result = some 4096 ∧
    ((dial_plugin_invoke (World.loaded Heap.empty) sysOk NULL 12 (cbytes "current_time")
        0 []).world.heap.block 4096).map List.length = some 25 ∧
    (cstr (sysOk.ctime sysOk.time) ++ [0]).length = 26 ∧
    (dial_plugin_invoke (World.loaded Heap.empty) sysOk NULL 12 (cbytes "current_time")
        0 []).world.heap.stray = [(4096, 25, 0)] := by
  decide

end Dial
